import Mathlib

/-!
Verification of the Hissy core: the NaN-boxed `Value` representation
(`src/vm/value.rs`) and the single-pass bytecode compiler
(`src/compiler/mod.rs`), shallowly embedded in Lean.

Conventions of the embedding:
* `u64` / `f64` bit patterns are `Nat` (a double is identified with its
  IEEE-754 bit pattern, which is all the source ever inspects);
  `x & DATA_MASK` is written `x % 2 ^ 48` since `DATA_MASK = 2 ^ 48 - 1`.
* Fallible Rust code returns `Except Fail _`; a Rust `panic` (failed
  `assert!`, arithmetic underflow in a debug build, `unwrap` of `None`)
  is the `Fail.trap` case, a returned `HissyError` the `Fail.err` case.
* Rust `Vec`s used as stacks (the context stack, the block stack, the
  chunk-manager stack) are Lean lists stored top-first: pushing to the
  end of the `Vec` is `::`, the `Vec`'s last element is the list head.
  Lists that are indexed rather than used as stacks (the chunk table,
  instruction bytes, upvalue tables, the constant pool) keep the
  `Vec`'s left-to-right order.
-/

namespace Hissy

/-! ## Value representation (src/vm/value.rs) -/

inductive ValueType where
  | Real | Nil | Bool | Int | Root | Ref
  deriving DecidableEq, Repr

/-- Tag number of a variant (`ValueType as u64` in the source). -/
def ValueType.tag : ValueType → Nat
  | .Real => 0
  | .Nil  => 1
  | .Bool => 2
  | .Int  => 3
  | .Root => 4
  | .Ref  => 5

/-- Inverse of `ValueType.tag` (`TryFromPrimitive`); `none` is a failed
`try_from`, whose `unwrap` in `get_type` is a panic. -/
def ValueType.ofTag : Nat → Option ValueType
  | 0 => some .Real
  | 1 => some .Nil
  | 2 => some .Bool
  | 3 => some .Int
  | 4 => some .Root
  | 5 => some .Ref
  | _ => none

def TAG_POS : Nat := 48

/-- `TAG_MIN = 0xfff8 << TAG_POS`. -/
def TAG_MIN : Nat := 0xfff8 * 2 ^ 48

/-- `x & DATA_MASK` where `DATA_MASK = u64::MAX >> 16 = 2 ^ 48 - 1`. -/
def mask_data (x : Nat) : Nat := x % 2 ^ 48

/-- `base_value(t) = TAG_MIN + ((t as u64) << TAG_POS)`. -/
def base_value (t : ValueType) : Nat := TAG_MIN + t.tag * 2 ^ 48

/-- `Value::get_type`; `none` models the `unwrap` panic on an invalid tag. -/
def get_type (v : Nat) : Option ValueType :=
  if v < TAG_MIN then some .Real
  else ValueType.ofTag ((v - TAG_MIN) / 2 ^ 48)

/-- `Value::from_pointer(pointer, root)`.  Returns the new value together
with the number of `signal_root` calls made on the wrapper (1 when `root`).
`none` models the debug assertion `pointer & DATA_MASK == pointer` failing. -/
def from_pointer (p : Nat) (root : Bool) : Option (Nat × Nat) :=
  if mask_data p = p then
    some (base_value (if root then .Root else .Ref) + p, if root then 1 else 0)
  else none

/-- `Value::get_pointer`.  Outer `none` is the `get_type` panic; the inner
option is the source's `Option<&mut GCWrapper>`, the wrapper being identified
with its 48-bit address. -/
def get_pointer (v : Nat) : Option (Option Nat) :=
  (get_type v).map fun t =>
    if t = ValueType.Root ∨ t = ValueType.Ref then some (mask_data v) else none

/-- `impl Clone for Value`: a heap value is re-built as a fresh `Root`
(signalling the wrapper), anything else is copied bitwise.  The second
component counts `signal_root` calls. -/
def clone (v : Nat) : Option (Nat × Nat) :=
  (get_pointer v).bind fun po =>
    match po with
    | some p => from_pointer p true
    | none => some (v, 0)

/-- `impl From<f64> for Value` (`from_real`): `none` models the debug
assertion `f64::to_bits(d) <= TAG_MIN` failing; otherwise the value is the
raw bit pattern. -/
def from_real (d : Nat) : Option Nat :=
  if d ≤ TAG_MIN then some d else none

/-- `impl TryFrom<&Value> for f64` (`try_as_real`).  Outer `none` is the
`get_type` panic; the `Except` mirrors the source's `Result`. -/
def try_as_real (v : Nat) : Option (Except String Nat) :=
  (get_type v).map fun t =>
    if t = ValueType.Real then Except.ok v else Except.error "Value is not a real"

/-! ## Errors (HissyError lives in the crate root, outside src/; modelled
from its uses in src/compiler/mod.rs: an error kind, a message, and a
`u16` source line, with `error`/`error_str` building `Compilation` errors
at line 0) -/

inductive ErrorType where
  | Parse | Compilation | Runtime
  deriving DecidableEq, Repr

structure HissyError where
  etype : ErrorType
  msg : String
  line : Nat
  deriving DecidableEq, Repr

/-- Failure of a compiler operation: a returned `HissyError`, or a Rust
panic (`trap`: failed `assert!`, integer underflow in debug, `unwrap`). -/
inductive Fail where
  | err (e : HissyError)
  | trap (msg : String)
  deriving DecidableEq, Repr

/-- `fn error(s)` of src/compiler/mod.rs. -/
def error (s : String) : HissyError := ⟨.Compilation, s, 0⟩

/-- `fn error_str(s)` of src/compiler/mod.rs. -/
def error_str (s : String) : HissyError := error s

/-! ## AST (crate::parser::ast is outside src/; the constructors and the
fields are modelled from their uses in src/compiler/mod.rs and from the
spec, a real literal again being its f64 bit pattern) -/

inductive BinOp where
  | Plus | Minus | Times | Divides | Modulo | Power
  | LEq | GEq | Less | Greater | Equal | NEq | And | Or
  deriving DecidableEq, Repr

inductive UnaOp where
  | Not | Minus
  deriving DecidableEq, Repr

mutual

inductive Expr where
  | Nil
  | Bool (b : Bool)
  | Int (i : Int)
  | Real (bits : Nat)
  | String (s : String)
  | Id (s : String)
  | BinOp (op : BinOp) (e1 e2 : Expr)
  | UnaOp (op : UnaOp) (e : Expr)
  | Call (f : Expr) (args : List Expr)
  | Function (params : List String) (body : List PStat)

inductive Cond where
  | If (e : Expr)
  | Else

inductive Stat where
  | ExprStat (e : Expr)
  | Let (id : String) (e : Expr)
  | Set (id : String) (e : Expr)
  | Cond (branches : List (Cond × List PStat))
  | While (e : Expr) (body : List PStat)
  | Log (e : Expr)
  | Return (e : Expr)

/-- `Positioned(stat, (line, col))`. -/
inductive PStat where
  | mk (stat : Stat) (line : Nat) (col : Nat)

end

def PStat.stat : PStat → Stat
  | .mk s _ _ => s

def PStat.line : PStat → Nat
  | .mk _ l _ => l

/-! ## Bytecode (`InstrType` and `MAX_REGISTERS` live in crate::vm, and
`Chunk` in src/compiler/chunk.rs, all outside src/) -/

/-- Modelled from the spec: `MAX_REGISTERS` is defined in crate::vm
(missing from src/); the spec fixes it at 128. -/
def MAX_REGISTERS : Nat := 128

/-- Modelled from the spec: the instruction set named in spec section 6;
`InstrType` itself is defined in crate::vm, missing from src/. -/
inductive InstrType where
  | Cpy | GetUp | SetUp
  | Add | Sub | Mul | Div | Mod | Pow
  | Leq | Geq | Lth | Gth | Eq | Neq | And | Or
  | Not | Neg
  | Call | Func | Jmp | Jif | Log | Ret
  deriving DecidableEq, Repr

/-- A byte of the instruction stream: an opcode byte (whose numeric value
the spec leaves as an implementation choice) or a raw operand byte. -/
inductive CB where
  | instr (i : InstrType)
  | byte (b : Nat)
  deriving DecidableEq, Repr

/-- Modelled from the spec: the constant-pool entries of spec section 6
(`ChunkConstant` is defined in src/compiler/chunk.rs, missing from src/),
a real again being its bit pattern so that pool interning compares reals
bit-identically as the spec prescribes. -/
inductive ChunkConstant where
  | Nil
  | Bool (b : Bool)
  | Int (i : Int)
  | Real (bits : Nat)
  | String (s : String)
  | Function (chunk_id : Nat)
  deriving DecidableEq, Repr

structure ChunkDebugInfo where
  name : String
  upvalue_names : List String
  line_numbers : List (Nat × Nat)
  deriving DecidableEq, Repr

/-- Modelled from the spec: `Chunk` is defined in src/compiler/chunk.rs
(missing from src/); the fields follow spec section 3 and the uses in
src/compiler/mod.rs. -/
structure Chunk where
  code : List CB
  constants : List ChunkConstant
  upvalues : List Nat
  nb_registers : Nat
  debug_info : ChunkDebugInfo
  deriving DecidableEq, Repr

def Chunk.new : Chunk :=
  { code := [], constants := [], upvalues := [], nb_registers := 0,
    debug_info := { name := "", upvalue_names := [], line_numbers := [] } }

/-- `Chunk::emit_byte`: append a raw operand byte (modelled from the spec,
the method body living in chunk.rs). -/
def Chunk.emit_byte (c : Chunk) (b : Nat) : Chunk :=
  { c with code := c.code ++ [.byte b] }

/-- `Chunk::emit_instr`: append an opcode byte (modelled from the spec). -/
def Chunk.emit_instr (c : Chunk) (i : InstrType) : Chunk :=
  { c with code := c.code ++ [.instr i] }

/-- Modelled from the spec: `Chunk::compile_constant` (in chunk.rs, missing
from src/) interns the constant in the pool by structural equality and
returns `MAX_REGISTERS + index`; it fails once the pool would exceed
`256 - MAX_REGISTERS` entries. -/
def Chunk.compile_constant (c : Chunk) (k : ChunkConstant) : Except Fail (Nat × Chunk) :=
  match c.constants.findIdx? (fun k0 => k0 = k) with
  | some i => .ok (MAX_REGISTERS + i, c)
  | none =>
    if c.constants.length < 256 - MAX_REGISTERS then
      .ok (MAX_REGISTERS + c.constants.length, { c with constants := c.constants ++ [k] })
    else
      .error (.err (error_str "Too many constants in chunk"))

/-! ## Jump emission (src/compiler/mod.rs, `emit_jump_to` /
`fill_in_jump_from`) -/

/-- Two's-complement re-reading of a `u8` as an `i8` (the VM side of
`rel_jmp as u8`). -/
def u8_as_i8 (b : Nat) : Int :=
  if b < 128 then (b : Int) else (b : Int) - 256

/-- `rel_jmp as u8` for an `i8` value: its two's-complement byte. -/
def i8_as_u8 (i : Int) : Nat := (i % 256).toNat

/-- `fn emit_jump_to(chunk, add)`: append the displacement byte for a jump
whose displacement byte sits at the current end of code and whose target is
`add`; `i8::try_from` fails outside `[-128, 127]` with "Jump too large". -/
def emit_jump_to (c : Chunk) (add : Nat) : Except Fail Chunk :=
  let rel : Int := (add : Int) - (c.code.length : Int)
  if -128 ≤ rel ∧ rel ≤ 127 then
    .ok (c.emit_byte (i8_as_u8 rel))
  else
    .error (.err (error_str "Jump too large"))

/-- `fn fill_in_jump_from(chunk, add)`: overwrite the placeholder byte at
offset `add` with the displacement from `add` to the current end of code. -/
def fill_in_jump_from (c : Chunk) (add : Nat) : Except Fail Chunk :=
  let rel : Int := (c.code.length : Int) - (add : Int)
  if -128 ≤ rel ∧ rel ≤ 127 then
    .ok { c with code := c.code.set add (.byte (i8_as_u8 rel)) }
  else
    .error (.err (error_str "Jump too large"))

/-! ## Register allocator (`ChunkRegisters`) -/

structure ChunkRegisters where
  required : Nat
  used : Nat
  local_cnt : Nat
  deriving DecidableEq, Repr

def ChunkRegisters.new : ChunkRegisters := ⟨0, 0, 0⟩

/-- `ChunkRegisters::new_reg`: `u8::try_from(used)` filtered by
`< MAX_REGISTERS` succeeds exactly when `used < MAX_REGISTERS`. -/
def ChunkRegisters.new_reg (r : ChunkRegisters) : Except Fail (Nat × ChunkRegisters) :=
  if r.used < MAX_REGISTERS then
    .ok (r.used, { r with used := r.used + 1,
                          required := if r.used + 1 > r.required then r.used + 1 else r.required })
  else
    .error (.err (error_str "Cannot compile: Too many registers required"))

/-- `ChunkRegisters::new_reg_range(n)`: checks `u8::try_from(used + n - 1)`
filtered by `< MAX_REGISTERS`.  The `u16` sum `used + n` overflows above
65535 and the subtraction underflows when `used = n = 0`, both debug-build
panics. -/
def ChunkRegisters.new_reg_range (r : ChunkRegisters) (n : Nat) : Except Fail (Nat × ChunkRegisters) :=
  if r.used + n > 65535 then
    .error (.trap "attempt to add with overflow")
  else if r.used + n = 0 then
    .error (.trap "attempt to subtract with overflow")
  else if r.used + n - 1 < MAX_REGISTERS then
    .ok (r.used, { r with used := r.used + n,
                           required := if r.used + n > r.required then r.used + n else r.required })
  else
    .error (.err (error_str "Cannot compile: Too many registers required"))

/-- `ChunkRegisters::make_local(i)`: asserts `i == local_cnt`. -/
def ChunkRegisters.make_local (r : ChunkRegisters) (i : Nat) : Except Fail ChunkRegisters :=
  if i = r.local_cnt then
    .ok { r with local_cnt := r.local_cnt + 1 }
  else
    .error (.trap "Local allocated above temporaries")

/-- `ChunkRegisters::free_reg(i)`: computes `used - 1` (underflow is a
debug-build panic) and asserts `i == used - 1`, then decrements `used` and
truncates `local_cnt` to `used`. -/
def ChunkRegisters.free_reg (r : ChunkRegisters) (i : Nat) : Except Fail ChunkRegisters :=
  if r.used = 0 then
    .error (.trap "attempt to subtract with overflow")
  else if i = r.used - 1 then
    .ok { r with used := r.used - 1,
                 local_cnt := if r.local_cnt > r.used - 1 then r.used - 1 else r.local_cnt }
  else
    .error (.trap "Registers are not freed in FIFO order")

/-- `ChunkRegisters::free_reg_range(start, n)`: asserts `start + n == used`
(the `u16` sum overflowing above 65535 is a debug-build panic). -/
def ChunkRegisters.free_reg_range (r : ChunkRegisters) (start n : Nat) : Except Fail ChunkRegisters :=
  if start + n > 65535 then
    .error (.trap "attempt to add with overflow")
  else if start + n = r.used then
    .ok { r with used := r.used - n,
                 local_cnt := if r.local_cnt > r.used - n then r.used - n else r.local_cnt }
  else
    .error (.trap "Registers are not freed in FIFO order")

/-- `ChunkRegisters::free_temp_reg(i)`: free only a true register operand
(`i < MAX_REGISTERS`) that is a temporary (`i >= local_cnt`). -/
def ChunkRegisters.free_temp_reg (r : ChunkRegisters) (i : Nat) : Except Fail ChunkRegisters :=
  if i < MAX_REGISTERS ∧ i ≥ r.local_cnt then r.free_reg i else .ok r

/-- `ChunkRegisters::free_temp_range(start, n)`. -/
def ChunkRegisters.free_temp_range (r : ChunkRegisters) (start n : Nat) : Except Fail ChunkRegisters :=
  if start ≥ r.local_cnt then r.free_reg_range start n else .ok r

/-! ## Bindings and per-chunk context -/

inductive Binding where
  | Local (reg : Nat)
  | Upvalue (upv : Nat)
  deriving DecidableEq, Repr

/-- `Binding::encoded`: a local is its register index, an upvalue its slot
offset by `MAX_REGISTERS`.  The offset `upv + MAX_REGISTERS` is computed in
`u8` arithmetic, so for a slot of 128 or more the sum exceeds 255 and the
addition panics (debug builds). -/
def Binding.encoded : Binding → Except Fail Nat
  | .Local reg => .ok reg
  | .Upvalue upv =>
    if upv + MAX_REGISTERS ≤ 255 then .ok (upv + MAX_REGISTERS)
    else .error (.trap "attempt to add with overflow")

/-- `BlockContext = HashMap<String, u8>`, modelled as an association list;
`insert` replaces any existing entry for the key. -/
abbrev BlockContext := List (String × Nat)

def bc_get (b : BlockContext) (id : String) : Option Nat :=
  (List.find? (fun p => p.1 = id) b).map (·.2)

def bc_insert (b : BlockContext) (id : String) (reg : Nat) : BlockContext :=
  (id, reg) :: List.filter (fun p => ¬ p.1 = id) b

structure UpvalueBinding where
  name : String
  reg : Nat
  deriving DecidableEq, Repr

structure ChunkContext where
  regs : ChunkRegisters
  blocks : List BlockContext
  upvalues : List UpvalueBinding
  deriving DecidableEq, Repr

def ChunkContext.new : ChunkContext := ⟨ChunkRegisters.new, [], []⟩

/-- `ChunkContext::enter_block`. -/
def ChunkContext.enter_block (c : ChunkContext) : ChunkContext :=
  { c with blocks := [] :: c.blocks }

/-- Insert into a descending list, after any equal elements (keeps the
sort stable). -/
def insert_desc (x : Nat) : List Nat → List Nat
  | [] => [x]
  | y :: ys => if x ≤ y then y :: insert_desc x ys else x :: y :: ys

/-- Descending stable sort of the registers of a block, as in `leave_block`
(`sort_by_key(Reverse)`). -/
def sort_desc (l : List Nat) : List Nat :=
  l.foldl (fun acc x => insert_desc x acc) []

/-- The order in which `leave_block` would free the current block's locals. -/
def block_free_order (c : ChunkContext) : List Nat :=
  match c.blocks with
  | [] => []
  | b :: _ => sort_desc (b.map (·.2))

/-- Fold of `free_reg` over a list of registers, as in `leave_block`. -/
def free_all (r : ChunkRegisters) : List Nat → Except Fail ChunkRegisters
  | [] => .ok r
  | i :: rest =>
    match r.free_reg i with
    | .error e => .error e
    | .ok r' => free_all r' rest

/-- `ChunkContext::leave_block`: free every local of the current block in
descending register order, then pop the block (`last().unwrap()` on an
empty block stack is a panic). -/
def ChunkContext.leave_block (c : ChunkContext) : Except Fail ChunkContext :=
  match c.blocks with
  | [] => .error (.trap "called Option unwrap on a None value")
  | b :: rest =>
    match free_all c.regs (sort_desc (b.map (·.2))) with
    | .error e => .error e
    | .ok regs => .ok { c with regs := regs, blocks := rest }

/-- `ChunkContext::find_block_local`: look up only in the current block. -/
def ChunkContext.find_block_local (c : ChunkContext) (id : String) : Except Fail (Option Nat) :=
  match c.blocks with
  | [] => .error (.trap "called Option unwrap on a None value")
  | b :: _ => .ok (bc_get b id)

/-- `ChunkContext::find_chunk_binding`: walk the block stack inside-out for
a local, then scan the chunk's upvalue list. -/
def find_chunk_binding (c : ChunkContext) (id : String) : Option Binding :=
  match c.blocks.findSome? (fun b => bc_get b id) with
  | some reg => some (.Local reg)
  | none =>
    match c.upvalues.findIdx? (fun u => u.name = id) with
    | some i => some (.Upvalue i)
    | none => none

/-- `ChunkContext::make_local`: bind `id` in the current block and mark the
register as a local. -/
def ChunkContext.make_local (c : ChunkContext) (id : String) (reg : Nat) : Except Fail ChunkContext :=
  match c.blocks with
  | [] => .error (.trap "called Option unwrap on a None value")
  | b :: rest =>
    match c.regs.make_local reg with
    | .error e => .error e
    | .ok regs => .ok { c with regs := regs, blocks := bc_insert b id reg :: rest }

/-- `ChunkContext::make_upvalue`: the slot number (an error once the list
already has more than 255 entries) is computed first, but the new entry is
pushed unconditionally — also on the error path. -/
def ChunkContext.make_upvalue (c : ChunkContext) (id : String) (reg : Nat) :
    Except Fail Nat × ChunkContext :=
  let upv : Except Fail Nat :=
    if c.upvalues.length ≤ 255 then .ok c.upvalues.length
    else .error (.err (error_str "Too many upvalues in chunk"))
  (upv, { c with upvalues := c.upvalues ++ [⟨id, reg⟩] })

/-! ## The compiler (`Compiler`, a `Context` stack of `ChunkContext`s and a
`ChunkManager`).  `Context`/`ChunkManager` deref to their top entries. -/

structure Compiler where
  debug_info : Bool
  /-- `Context.stack`, innermost chunk context first. -/
  ctx : List ChunkContext
  /-- `ChunkManager.chunks` in creation order; the index is the chunk id. -/
  chunks : List Chunk
  /-- `ChunkManager.stack`, innermost chunk index first. -/
  chunkStack : List Nat
  deriving DecidableEq, Repr

def Compiler.new (debug_info : Bool) : Compiler :=
  ⟨debug_info, [], [], []⟩

/-- Apply an operation to the innermost chunk context (`*self.ctx`);
an empty stack is the deref `unwrap` panic. -/
def Compiler.mapCtx {α : Type} (comp : Compiler)
    (f : ChunkContext → Except Fail (α × ChunkContext)) : Except Fail (α × Compiler) :=
  match comp.ctx with
  | [] => .error (.trap "called Option unwrap on a None value")
  | c :: rest =>
    match f c with
    | .error e => .error e
    | .ok (a, c') => .ok (a, { comp with ctx := c' :: rest })

/-- Apply an operation to the current chunk (`*self.chunk`). -/
def Compiler.mapChunk {α : Type} (comp : Compiler)
    (f : Chunk → Except Fail (α × Chunk)) : Except Fail (α × Compiler) :=
  match comp.chunkStack with
  | [] => .error (.trap "called Option unwrap on a None value")
  | idx :: _ =>
    match comp.chunks.get? idx with
    | none => .error (.trap "index out of bounds")
    | some c =>
      match f c with
      | .error e => .error e
      | .ok (a, c') => .ok (a, { comp with chunks := comp.chunks.set idx c' })

def Compiler.mapRegs {α : Type} (comp : Compiler)
    (f : ChunkRegisters → Except Fail (α × ChunkRegisters)) : Except Fail (α × Compiler) :=
  comp.mapCtx fun c =>
    match f c.regs with
    | .error e => .error e
    | .ok (a, r) => .ok (a, { c with regs := r })

def Compiler.new_reg (comp : Compiler) : Except Fail (Nat × Compiler) :=
  comp.mapRegs (·.new_reg)

def Compiler.new_reg_range (comp : Compiler) (n : Nat) : Except Fail (Nat × Compiler) :=
  comp.mapRegs (·.new_reg_range n)

def Compiler.free_reg (comp : Compiler) (i : Nat) : Except Fail Compiler :=
  (comp.mapRegs fun r => (r.free_reg i).map ((), ·)).map (·.2)

def Compiler.free_temp_reg (comp : Compiler) (i : Nat) : Except Fail Compiler :=
  (comp.mapRegs fun r => (r.free_temp_reg i).map ((), ·)).map (·.2)

def Compiler.free_temp_range (comp : Compiler) (start n : Nat) : Except Fail Compiler :=
  (comp.mapRegs fun r => (r.free_temp_range start n).map ((), ·)).map (·.2)

def Compiler.enter_block (comp : Compiler) : Except Fail Compiler :=
  (comp.mapCtx fun c => .ok ((), c.enter_block)).map (·.2)

def Compiler.leave_block (comp : Compiler) : Except Fail Compiler :=
  (comp.mapCtx fun c => (c.leave_block).map ((), ·)).map (·.2)

def Compiler.find_block_local (comp : Compiler) (id : String) : Except Fail (Option Nat) :=
  (comp.mapCtx fun c => (c.find_block_local id).map (·, c)).map (·.1)

def Compiler.make_local (comp : Compiler) (id : String) (reg : Nat) : Except Fail Compiler :=
  (comp.mapCtx fun c => (c.make_local id reg).map ((), ·)).map (·.2)

def Compiler.emit_instr (comp : Compiler) (i : InstrType) : Except Fail Compiler :=
  (comp.mapChunk fun c => .ok ((), c.emit_instr i)).map (·.2)

def Compiler.emit_byte (comp : Compiler) (b : Nat) : Except Fail Compiler :=
  (comp.mapChunk fun c => .ok ((), c.emit_byte b)).map (·.2)

def Compiler.code_len (comp : Compiler) : Except Fail Nat :=
  (comp.mapChunk fun c => .ok (c.code.length, c)).map (·.1)

def Compiler.compile_constant (comp : Compiler) (k : ChunkConstant) : Except Fail (Nat × Compiler) :=
  comp.mapChunk (·.compile_constant k)

def Compiler.emit_jump_to (comp : Compiler) (add : Nat) : Except Fail Compiler :=
  (comp.mapChunk fun c => (Hissy.emit_jump_to c add).map ((), ·)).map (·.2)

def Compiler.fill_in_jump_from (comp : Compiler) (add : Nat) : Except Fail Compiler :=
  (comp.mapChunk fun c => (Hissy.fill_in_jump_from c add).map ((), ·)).map (·.2)

/-- Fill in every recorded end-of-branch jump, in recording order
(the final loop of the `Stat::Cond` arm). -/
def fill_jumps (comp : Compiler) : List Nat → Except Fail Compiler
  | [] => .ok comp
  | a :: rest =>
    match comp.fill_in_jump_from a with
    | .error e => .error e
    | .ok comp => fill_jumps comp rest

/-- When debug info is on, append `(code_len as u16, line)` to the current
chunk's line table (the `u16` conversion of the code length `unwrap`s). -/
def Compiler.push_line (comp : Compiler) (line : Nat) : Except Fail Compiler :=
  (comp.mapChunk fun c =>
    if c.code.length ≤ 65535 then
      .ok ((), { c with debug_info :=
        { c.debug_info with line_numbers := c.debug_info.line_numbers ++ [(c.code.length, line)] } })
    else
      .error (.trap "called Result unwrap on an Err value")).map (·.2)

/-! ## Binding resolution (`Compiler::get_binding`) -/

/-- The search of `get_binding` over the enclosing chunks (`iter().rev().
skip(1).find_map(...)`): scanning the stack tail from the inside out,
split it at the first chunk holding a binding for `id`. -/
def find_enclosing (id : String) : List ChunkContext →
    Option (List ChunkContext × Binding × List ChunkContext)
  | [] => none
  | c :: cs =>
    match find_chunk_binding c id with
    | some b => some ([], b, c :: cs)
    | none => (find_enclosing id cs).map (fun x => (c :: x.1, x.2.1, x.2.2))

/-- The materialization loop of `get_binding`: walk the intervening chunk
contexts from the outermost in, making an upvalue for `id` in each, seeded
by the enclosing binding.  `binding.encoded()` is evaluated as an argument,
before `make_upvalue` runs, so its `u8` overflow panic precedes the push;
the `?` on `make_upvalue`'s result aborts on the first full upvalue
table. -/
def materialize (id : String) : Binding → List ChunkContext →
    Except Fail (Binding × List ChunkContext)
  | b, [] => .ok (b, [])
  | b, c :: cs =>
    match b.encoded with
    | .error e => .error e
    | .ok enc =>
      let r := c.make_upvalue id enc
      match r.1 with
      | .error e => .error e
      | .ok upv =>
        match materialize id (.Upvalue upv) cs with
        | .error e => .error e
        | .ok (b', cs') => .ok (b', r.2 :: cs')

/-- `Compiler::get_binding`: look in the innermost chunk first; otherwise
find the nearest enclosing chunk with a binding and materialize upvalues
in every chunk in between (innermost included). -/
def get_binding (comp : Compiler) (id : String) : Except Fail (Option Binding × Compiler) :=
  match comp.ctx with
  | [] => .error (.trap "called Option unwrap on a None value")
  | inner :: rest =>
    match find_chunk_binding inner id with
    | some b => .ok (some b, comp)
    | none =>
      match find_enclosing id rest with
      | none => .ok (none, comp)
      | some (mids, b0, rest') =>
        match materialize id b0 ((inner :: mids).reverse) with
        | .error e => .error e
        | .ok (b, newRev) => .ok (some b, { comp with ctx := newRev.reverse ++ rest' })

/-! ## Compilation (`compile_expr` / `compile_block` / `compile_chunk`).

The Rust functions are mutually recursive over the AST; here each takes an
explicit `fuel : Nat`, decremented at every mutual call, so that the
definitions stay kernel-computable.  Exhausting the fuel is a `trap`
distinct from every behaviour of the source; callers pass any bound large
enough for their input. -/

/-- The operator table of the `Expr::BinOp` arm. -/
def binop_instr : BinOp → InstrType
  | .Plus => .Add
  | .Minus => .Sub
  | .Times => .Mul
  | .Divides => .Div
  | .Modulo => .Mod
  | .Power => .Pow
  | .LEq => .Leq
  | .GEq => .Geq
  | .Less => .Lth
  | .Greater => .Gth
  | .Equal => .Eq
  | .NEq => .Neq
  | .And => .And
  | .Or => .Or

def unaop_instr : UnaOp → InstrType
  | .Not => .Not
  | .Minus => .Neg

/-- The arity conversion of the `Expr::Call` arm:
`u16::try_from(args.len())` fails — with "Too many function arguments" —
exactly when the count exceeds `u16::MAX = 65535`. -/
def arg_count_check (args : List Expr) : Except Fail Nat :=
  if args.length ≤ 65535 then .ok args.length
  else .error (.err (error_str "Too many function arguments"))

/-- `Compiler::emit_reg(dest)`: the register emitted is `dest` if supplied,
else a fresh one. -/
def Compiler.emit_reg (comp : Compiler) (dest : Option Nat) : Except Fail (Nat × Compiler) :=
  match dest with
  | some r =>
    match comp.emit_byte r with
    | .error e => .error e
    | .ok comp => .ok (r, comp)
  | none =>
    match comp.new_reg with
    | .error e => .error e
    | .ok (r, comp) =>
      match comp.emit_byte r with
      | .error e => .error e
      | .ok comp => .ok (r, comp)

/-- The common tail of `compile_expr`: when the arm left `needs_copy` set
and a `dest` was supplied, emit `Cpy reg, dest` and adopt `dest`. -/
def copy_tail (needs_copy : Bool) (reg : Nat) (dest : Option Nat) (comp : Compiler) :
    Except Fail (Nat × Compiler) :=
  if needs_copy then
    match dest with
    | some d =>
      match comp.emit_instr .Cpy with
      | .error e => .error e
      | .ok comp =>
        match comp.emit_byte reg with
        | .error e => .error e
        | .ok comp =>
          match comp.emit_byte d with
          | .error e => .error e
          | .ok comp => .ok (d, comp)
    | none => .ok (reg, comp)
  else .ok (reg, comp)

/-- The declaration of parameters at the start of `compile_chunk`. -/
def declare_args (comp : Compiler) : List String → Except Fail Compiler
  | [] => .ok comp
  | id :: rest =>
    match comp.new_reg with
    | .error e => .error e
    | .ok (reg, comp) =>
      match comp.make_local id reg with
      | .error e => .error e
      | .ok comp => declare_args comp rest

/-- The chunk wiring at the end of `compile_chunk`: store the register
watermark and the upvalue capture vector (plus names under debug info)
computed from the innermost chunk context into the current chunk. -/
def Compiler.store_chunk_info (comp : Compiler) : Except Fail Compiler :=
  match comp.ctx with
  | [] => .error (.trap "called Option unwrap on a None value")
  | cc :: _ =>
    (comp.mapChunk fun c => .ok ((),
      { c with nb_registers := cc.regs.required,
               upvalues := cc.upvalues.map (·.reg),
               debug_info :=
                 if comp.debug_info then
                   { c.debug_info with upvalue_names := cc.upvalues.map (·.name) }
                 else c.debug_info })).map (·.2)

def Compiler.set_chunk_name (comp : Compiler) (name : String) : Except Fail Compiler :=
  (comp.mapChunk fun c => .ok ((),
    { c with debug_info := { c.debug_info with name := name } })).map (·.2)

mutual

/-- `Compiler::compile_expr(expr, dest, name)`: compile `expr` (into `dest`
when given) and return the final register. -/
def compile_expr : Nat → Compiler → Expr → Option Nat → Option String →
    Except Fail (Nat × Compiler)
  | 0, _, _, _, _ => .error (.trap "out of fuel")
  | fuel + 1, comp, expr, dest, name =>
    match expr with
    | .Nil =>
      match comp.compile_constant .Nil with
      | .error e => .error e
      | .ok (r, comp) => copy_tail true r dest comp
    | .Bool b =>
      match comp.compile_constant (.Bool b) with
      | .error e => .error e
      | .ok (r, comp) => copy_tail true r dest comp
    | .Int i =>
      match comp.compile_constant (.Int i) with
      | .error e => .error e
      | .ok (r, comp) => copy_tail true r dest comp
    | .Real bits =>
      match comp.compile_constant (.Real bits) with
      | .error e => .error e
      | .ok (r, comp) => copy_tail true r dest comp
    | .String s =>
      match comp.compile_constant (.String s) with
      | .error e => .error e
      | .ok (r, comp) => copy_tail true r dest comp
    | .Id s =>
      match get_binding comp s with
      | .error e => .error e
      | .ok (none, _) =>
        .error (.err (error ("Referencing undefined binding '" ++ s ++ "'")))
      | .ok (some (.Local reg), comp) => copy_tail true reg dest comp
      | .ok (some (.Upvalue upv), comp) =>
        match comp.emit_instr .GetUp with
        | .error e => .error e
        | .ok comp =>
          match comp.emit_byte upv with
          | .error e => .error e
          | .ok comp =>
            match comp.emit_reg dest with
            | .error e => .error e
            | .ok (r, comp) => copy_tail false r dest comp
    | .BinOp op e1 e2 =>
      match compile_expr fuel comp e1 none none with
      | .error e => .error e
      | .ok (r1, comp) =>
        match compile_expr fuel comp e2 none none with
        | .error e => .error e
        | .ok (r2, comp) =>
          match comp.free_temp_reg r2 with
          | .error e => .error e
          | .ok comp =>
            match comp.free_temp_reg r1 with
            | .error e => .error e
            | .ok comp =>
              match comp.emit_instr (binop_instr op) with
              | .error e => .error e
              | .ok comp =>
                match comp.emit_byte r1 with
                | .error e => .error e
                | .ok comp =>
                  match comp.emit_byte r2 with
                  | .error e => .error e
                  | .ok comp =>
                    match comp.emit_reg dest with
                    | .error e => .error e
                    | .ok (r, comp) => copy_tail false r dest comp
    | .UnaOp op e =>
      match compile_expr fuel comp e dest none with
      | .error e => .error e
      | .ok (r, comp) =>
        match comp.free_temp_reg r with
        | .error e => .error e
        | .ok comp =>
          match comp.emit_instr (unaop_instr op) with
          | .error e => .error e
          | .ok comp =>
            match comp.emit_byte r with
            | .error e => .error e
            | .ok comp =>
              match comp.emit_reg dest with
              | .error e => .error e
              | .ok (r', comp) => copy_tail false r' dest comp
    | .Call f args =>
      match compile_expr fuel comp f none none with
      | .error e => .error e
      | .ok (func, comp) =>
        match arg_count_check args with
        | .error e => .error e
        | .ok n =>
          match comp.new_reg_range n with
          | .error e => .error e
          | .ok (arg_range, comp) =>
            match compile_args fuel comp arg_range 0 args with
            | .error e => .error e
            | .ok comp =>
              match comp.free_temp_range arg_range n with
              | .error e => .error e
              | .ok comp =>
                match comp.free_temp_reg func with
                | .error e => .error e
                | .ok comp =>
                  match comp.emit_instr .Call with
                  | .error e => .error e
                  | .ok comp =>
                    match comp.emit_byte func with
                    | .error e => .error e
                    | .ok comp =>
                      match comp.emit_byte arg_range with
                      | .error e => .error e
                      | .ok comp =>
                        match comp.emit_reg dest with
                        | .error e => .error e
                        | .ok (r, comp) => copy_tail false r dest comp
    | .Function params body =>
      match compile_chunk fuel comp (name.getD "<func>") body params with
      | .error e => .error e
      | .ok (new_chunk, comp) =>
        match comp.emit_instr .Func with
        | .error e => .error e
        | .ok comp =>
          match comp.emit_byte new_chunk with
          | .error e => .error e
          | .ok comp =>
            match comp.emit_reg dest with
            | .error e => .error e
            | .ok (r, comp) => copy_tail false r dest comp

/-- The argument loop of the `Expr::Call` arm: compile each argument into
its slot of the contiguous range (`u8::try_from(arg_range + i).unwrap()`). -/
def compile_args : Nat → Compiler → Nat → Nat → List Expr → Except Fail Compiler
  | 0, _, _, _, _ => .error (.trap "out of fuel")
  | _ + 1, comp, _, _, [] => .ok comp
  | fuel + 1, comp, arg_range, i, arg :: rest =>
    if arg_range + i ≤ 255 then
      match compile_expr fuel comp arg (some (arg_range + i)) none with
      | .error e => .error e
      | .ok (_, comp) => compile_args fuel comp arg_range (i + 1) rest
    else
      .error (.trap "called Result unwrap on an Err value")

/-- One statement (the `match stat` of `compile_block`'s `compile_stat`
closure). -/
def compile_stat : Nat → Compiler → Stat → Except Fail Compiler
  | 0, _, _ => .error (.trap "out of fuel")
  | fuel + 1, comp, stat =>
    match stat with
    | .ExprStat e =>
      match compile_expr fuel comp e none none with
      | .error e => .error e
      | .ok (reg, comp) => comp.free_temp_reg reg
    | .Let id e =>
      match comp.find_block_local id with
      | .error e => .error e
      | .ok existing =>
        match (match existing with
               | some reg => comp.free_reg reg
               | none => .ok comp) with
        | .error e => .error e
        | .ok comp =>
          match comp.new_reg with
          | .error e => .error e
          | .ok (reg, comp) =>
            match compile_expr fuel comp e (some reg) (some id) with
            | .error e => .error e
            | .ok (_, comp) => comp.make_local id reg
    | .Set id e =>
      match get_binding comp id with
      | .error e => .error e
      | .ok (none, _) =>
        .error (.err (error ("Referencing undefined binding '" ++ id ++ "'")))
      | .ok (some (.Local reg), comp) =>
        match compile_expr fuel comp e (some reg) none with
        | .error e => .error e
        | .ok (_, comp) => .ok comp
      | .ok (some (.Upvalue upv), comp) =>
        match compile_expr fuel comp e none none with
        | .error e => .error e
        | .ok (reg, comp) =>
          match comp.free_temp_reg reg with
          | .error e => .error e
          | .ok comp =>
            match comp.emit_instr .SetUp with
            | .error e => .error e
            | .ok comp =>
              match comp.emit_byte upv with
              | .error e => .error e
              | .ok comp => comp.emit_byte reg
    | .Cond branches =>
      match branches.length with
      | 0 => .error (.trap "attempt to subtract with overflow")
      | len + 1 =>
        match compile_branches fuel comp branches 0 len [] with
        | .error e => .error e
        | .ok (comp, end_jmps) => fill_jumps comp end_jmps
    | .While e bl =>
      match comp.code_len with
      | .error e => .error e
      | .ok begin0 =>
        match compile_expr fuel comp e none none with
        | .error e => .error e
        | .ok (cond_reg, comp) =>
          match comp.free_temp_reg cond_reg with
          | .error e => .error e
          | .ok comp =>
            match comp.emit_instr .Jif with
            | .error e => .error e
            | .ok comp =>
              match comp.code_len with
              | .error e => .error e
              | .ok placeholder =>
                match comp.emit_byte 0 with
                | .error e => .error e
                | .ok comp =>
                  match comp.emit_byte cond_reg with
                  | .error e => .error e
                  | .ok comp =>
                    match compile_block fuel comp bl with
                    | .error e => .error e
                    | .ok comp =>
                      match comp.emit_instr .Jmp with
                      | .error e => .error e
                      | .ok comp =>
                        match comp.emit_jump_to begin0 with
                        | .error e => .error e
                        | .ok comp => comp.fill_in_jump_from placeholder
    | .Log e =>
      match compile_expr fuel comp e none none with
      | .error e => .error e
      | .ok (reg, comp) =>
        match comp.free_temp_reg reg with
        | .error e => .error e
        | .ok comp =>
          match comp.emit_instr .Log with
          | .error e => .error e
          | .ok comp => comp.emit_byte reg
    | .Return e =>
      match compile_expr fuel comp e none none with
      | .error e => .error e
      | .ok (reg, comp) =>
        match comp.free_temp_reg reg with
        | .error e => .error e
        | .ok comp =>
          match comp.emit_instr .Ret with
          | .error e => .error e
          | .ok comp => comp.emit_byte reg

/-- The branch loop of the `Stat::Cond` arm: each `If` branch compiles its
condition, emits a `Jif` with a placeholder displacement, compiles its
body, records an end-jump unless it is the last branch, and backpatches
its `Jif`; an `Else` branch just compiles its body. -/
def compile_branches : Nat → Compiler → List (Cond × List PStat) → Nat → Nat → List Nat →
    Except Fail (Compiler × List Nat)
  | 0, _, _, _, _, _ => .error (.trap "out of fuel")
  | _ + 1, comp, [], _, _, end_jmps => .ok (comp, end_jmps)
  | fuel + 1, comp, (cond, bl) :: rest, i, last_branch, end_jmps =>
    match cond with
    | .If e =>
      match compile_expr fuel comp e none none with
      | .error e => .error e
      | .ok (cond_reg, comp) =>
        match comp.free_temp_reg cond_reg with
        | .error e => .error e
        | .ok comp =>
          match comp.emit_instr .Jif with
          | .error e => .error e
          | .ok comp =>
            match comp.code_len with
            | .error e => .error e
            | .ok after_jmp =>
              match comp.emit_byte 0 with
              | .error e => .error e
              | .ok comp =>
                match comp.emit_byte cond_reg with
                | .error e => .error e
                | .ok comp =>
                  match compile_block fuel comp bl with
                  | .error e => .error e
                  | .ok comp =>
                    let after_body : Except Fail (Compiler × List Nat) :=
                      if i ≠ last_branch then
                        match comp.emit_instr .Jmp with
                        | .error e => .error e
                        | .ok comp =>
                          match comp.code_len with
                          | .error e => .error e
                          | .ok from2 =>
                            match comp.emit_byte 0 with
                            | .error e => .error e
                            | .ok comp => .ok (comp, end_jmps ++ [from2])
                      else .ok (comp, end_jmps)
                    match after_body with
                    | .error e => .error e
                    | .ok (comp, end_jmps) =>
                      match comp.fill_in_jump_from after_jmp with
                      | .error e => .error e
                      | .ok comp => compile_branches fuel comp rest (i + 1) last_branch end_jmps
    | .Else =>
      match compile_block fuel comp bl with
      | .error e => .error e
      | .ok comp => compile_branches fuel comp rest (i + 1) last_branch end_jmps

/-- The statement loop of `compile_block`: convert the line number, record
it under debug info, compile the statement, and re-tag any `Compilation`
error still carrying line 0 with the statement's line. -/
def compile_stats : Nat → Compiler → List PStat → Except Fail Compiler
  | 0, _, _ => .error (.trap "out of fuel")
  | _ + 1, comp, [] => .ok comp
  | fuel + 1, comp, .mk stat line _ :: rest =>
    if line ≤ 65535 then
      match (if comp.debug_info then comp.push_line line else .ok comp) with
      | .error e => .error e
      | .ok comp =>
        let res : Except Fail Compiler :=
          match compile_stat fuel comp stat with
          | .error (.err ⟨.Compilation, msg, 0⟩) =>
            .error (.err ⟨.Compilation, msg, line⟩)
          | res => res
        match res with
        | .error e => .error e
        | .ok comp => compile_stats fuel comp rest
    else
      .error (.err (error_str "Line number too large"))

/-- `Compiler::compile_block`: record `used`, enter a block, compile the
statements, leave the block, and assert that no register leaked. -/
def compile_block : Nat → Compiler → List PStat → Except Fail Compiler
  | 0, _, _ => .error (.trap "out of fuel")
  | fuel + 1, comp, stats =>
    match comp.ctx with
    | [] => .error (.trap "called Option unwrap on a None value")
    | cc :: rest =>
      let used_before := cc.regs.used
      match compile_stats fuel { comp with ctx := cc.enter_block :: rest } stats with
      | .error e => .error e
      | .ok comp =>
        match comp.leave_block with
        | .error e => .error e
        | .ok comp =>
          match comp.ctx with
          | [] => .error (.trap "called Option unwrap on a None value")
          | cc' :: _ =>
            if used_before = cc'.regs.used then .ok comp
            else .error (.trap "Leaked register")

/-- `Compiler::compile_chunk`: open a fresh chunk and chunk context,
declare the parameters as locals, compile the body, wire the finished
chunk's metadata, pop both stacks and return the chunk id (an error above
255). -/
def compile_chunk : Nat → Compiler → String → List PStat → List String →
    Except Fail (Nat × Compiler)
  | 0, _, _, _, _ => .error (.trap "out of fuel")
  | fuel + 1, comp, name, ast, args =>
    let chunk_id := comp.chunks.length
    let comp := { comp with chunks := comp.chunks ++ [Chunk.new],
                            chunkStack := chunk_id :: comp.chunkStack }
    match (if comp.debug_info then comp.set_chunk_name name else .ok comp) with
    | .error e => .error e
    | .ok comp =>
      let comp := { comp with ctx := ChunkContext.new :: comp.ctx }
      match comp.enter_block with
      | .error e => .error e
      | .ok comp =>
        match declare_args comp args with
        | .error e => .error e
        | .ok comp =>
          match compile_block fuel comp ast with
          | .error e => .error e
          | .ok comp =>
            match comp.leave_block with
            | .error e => .error e
            | .ok comp =>
              match comp.store_chunk_info with
              | .error e => .error e
              | .ok comp =>
                match comp.ctx with
                | [] => .error (.trap "Cannot leave main chunk")
                | _ :: ctxRest =>
                  match comp.chunkStack with
                  | [] => .error (.trap "called Option unwrap on a None value")
                  | _ :: stackRest =>
                    let comp := { comp with ctx := ctxRest, chunkStack := stackRest }
                    if chunk_id ≤ 255 then .ok (chunk_id, comp)
                    else .error (.err (error_str "Too many chunks"))

end

structure Program where
  debug_info : Bool
  chunks : List Chunk
  deriving DecidableEq, Repr

/-- `Compiler::compile_program`: parsing is external (the parser is not part
of src/), so the embedded entry point takes the already-parsed program AST
and compiles the `<main>` chunk. -/
def compile_program (fuel : Nat) (debug_info : Bool) (ast : List PStat) :
    Except Fail Program :=
  match compile_chunk fuel (Compiler.new debug_info) "<main>" ast [] with
  | .error e => .error e
  | .ok (_, comp) => .ok { debug_info := debug_info, chunks := comp.chunks }

/-! ## Spec-side description of upvalue materialization -/

/-- Follows the spec's words for the capture-source encoding: a local is
its register index (below `MAX_REGISTERS`), an upvalue its slot offset by
`MAX_REGISTERS`, with no width limit stated. -/
def upvalue_source_encoding : Binding → Nat
  | .Local reg => reg
  | .Upvalue upv => upv + MAX_REGISTERS

/-- Follows the spec's words (sections 4.4 and 9) for comparison with
`get_binding`: materializing a capture chain appends, to each intervening
chunk context taken from the outermost in, exactly one new upvalue entry
whose capture source is the encoding of the adjacent outer chunk's binding
(the seed `b` for the first, then `Upvalue` of the slot just created), and
hands the final `Upvalue` slot to the caller. -/
def upvalue_chain_spec (id : String) : Binding → List ChunkContext → Binding × List ChunkContext
  | b, [] => (b, [])
  | b, c :: cs =>
    let out := upvalue_chain_spec id (.Upvalue c.upvalues.length) cs
    (out.1, { c with upvalues := c.upvalues ++ [⟨id, upvalue_source_encoding b⟩] } :: out.2)

/-! ## Concrete inputs and intermediate states used by the theorems -/

/-- The spec's end-to-end scenario 5: `let a = 1 let a = a + 10 log a`,
with one statement per source line. -/
def astC2 : List PStat :=
  [.mk (.Let "a" (.Int 1)) 1 0,
   .mk (.Let "a" (.BinOp .Plus (.Id "a") (.Int 10))) 2 0,
   .mk (.Log (.Id "a")) 3 0]

/-- The compiler state on entry to `compile_block` for a fresh `<main>`
chunk (after `compile_chunk`'s preamble). -/
def cPre : Compiler :=
  { debug_info := false,
    ctx := [{ regs := ⟨0, 0, 0⟩, blocks := [[]], upvalues := [] }],
    chunks := [Chunk.new], chunkStack := [0] }

/-- `cPre` after `compile_block` has entered the statement block. -/
def cIn : Compiler :=
  { debug_info := false,
    ctx := [{ regs := ⟨0, 0, 0⟩, blocks := [[], []], upvalues := [] }],
    chunks := [Chunk.new], chunkStack := [0] }

def chunkA : Chunk :=
  { code := [.instr .Cpy, .byte 128, .byte 0],
    constants := [.Int 1], upvalues := [], nb_registers := 0,
    debug_info := { name := "", upvalue_names := [], line_numbers := [] } }

def chunkB : Chunk :=
  { code := [.instr .Cpy, .byte 128, .byte 0, .instr .Add, .byte 0, .byte 129, .byte 0],
    constants := [.Int 1, .Int 10], upvalues := [], nb_registers := 0,
    debug_info := { name := "", upvalue_names := [], line_numbers := [] } }

def chunkC : Chunk :=
  { code := [.instr .Cpy, .byte 128, .byte 0, .instr .Add, .byte 0, .byte 129, .byte 0,
             .instr .Log, .byte 0],
    constants := [.Int 1, .Int 10], upvalues := [], nb_registers := 0,
    debug_info := { name := "", upvalue_names := [], line_numbers := [] } }

/-- State after `let a = 1`: register 0 is the local `a`. -/
def cA : Compiler :=
  { debug_info := false,
    ctx := [{ regs := ⟨1, 1, 1⟩, blocks := [[("a", 0)], []], upvalues := [] }],
    chunks := [chunkA], chunkStack := [0] }

/-- State after the rebinding `let a = a + 10`: `used` has dropped to 0
while `local_cnt` is still 1, because register 0 — freed from the old
binding and re-allocated for the new one — was freed again as a temporary
while the initializer compiled. -/
def cB : Compiler :=
  { debug_info := false,
    ctx := [{ regs := ⟨1, 0, 1⟩, blocks := [[("a", 0)], []], upvalues := [] }],
    chunks := [chunkB], chunkStack := [0] }

/-- State after `log a`, still with `used = 0 < local_cnt = 1`. -/
def cC : Compiler :=
  { debug_info := false,
    ctx := [{ regs := ⟨1, 0, 1⟩, blocks := [[("a", 0)], []], upvalues := [] }],
    chunks := [chunkC], chunkStack := [0] }

/-- One statement `fn() {}` at source line 7, as repeated 256 times by the
program refuting claim C8's line-0 half. -/
def fnStmt : PStat := .mk (.ExprStat (.Function [] [])) 7 0

/-- The instruction bytes of the main chunk after `k` statements `fn() {}`:
each emits `Func`, the new chunk's id, and the freshly allocated (and
immediately freed) result register 0. -/
def mainCode (k : Nat) : List CB :=
  (List.range k).flatMap (fun i => [.instr .Func, .byte (i + 1), .byte 0])

/-- The compiler state inside the main chunk's statement block after `k`
statements `fn() {}`; `r` is the register watermark so far (0 before the
first statement, 1 afterwards). -/
def funcsStateR (k r : Nat) : Compiler :=
  { debug_info := false,
    ctx := [{ regs := ⟨r, 0, 0⟩, blocks := [[], []], upvalues := [] }],
    chunks := { Chunk.new with code := mainCode k } :: List.replicate k Chunk.new,
    chunkStack := [0] }

/-- The program `let f = fn() {} f(nil, nil, ..., nil)` whose call has 256
arguments, one statement per source line. -/
def astC9 : List PStat :=
  [.mk (.Let "f" (.Function [] [])) 1 0,
   .mk (.ExprStat (.Call (.Id "f") (List.replicate 256 .Nil))) 2 0]

/-- State after `let f = fn() {}`: `f` is local register 0 and chunk 1 is
the compiled empty function. -/
def cMid : Compiler :=
  { debug_info := false,
    ctx := [{ regs := ⟨1, 1, 1⟩, blocks := [[("f", 0)], []], upvalues := [] }],
    chunks := [{ code := [.instr .Func, .byte 1, .byte 0], constants := [], upvalues := [],
                 nb_registers := 0, debug_info := ⟨"", [], []⟩ },
               { code := [], constants := [], upvalues := [], nb_registers := 0,
                 debug_info := ⟨"", [], []⟩ }],
    chunkStack := [0] }

/-- A chunk context whose upvalue table is already full (256 entries). -/
def ctxFullUpvalues : ChunkContext :=
  { regs := ⟨0, 0, 0⟩, blocks := [[]], upvalues := List.replicate 256 ⟨"u", 0⟩ }

/-- Innermost chunk context of the C1 witness: empty, no binding for x. -/
def ctxInnerW : ChunkContext :=
  { regs := ⟨0, 0, 0⟩, blocks := [[]], upvalues := [] }

/-- Enclosing chunk context of the C1 witness: x is a local in register 3. -/
def ctxHitW : ChunkContext :=
  { regs := ⟨4, 4, 4⟩, blocks := [[("x", 3)]], upvalues := [] }

/-- Two-chunk compiler for the C1 witness. -/
def compW : Compiler :=
  { debug_info := false,
    ctx := [ctxInnerW, ctxHitW],
    chunks := [Chunk.new, Chunk.new], chunkStack := [1, 0] }

/-- Enclosing chunk context whose binding for x is an upvalue at slot 128:
128 other captures precede it, and no block holds x as a local. -/
def ctxHitBig : ChunkContext :=
  { regs := ⟨0, 0, 0⟩, blocks := [[]],
    upvalues := List.replicate 128 ⟨"u", 0⟩ ++ [⟨"x", 0⟩] }

/-- Two-chunk compiler stack around `ctxHitBig`, with an innermost context
that has no binding for x. -/
def compBig : Compiler :=
  { debug_info := false,
    ctx := [ctxInnerW, ctxHitBig],
    chunks := [Chunk.new, Chunk.new], chunkStack := [1, 0] }

/-! ## Helper lemmas -/

theorem mask_idem (v : Nat) : mask_data (mask_data v) = mask_data v :=
  Nat.mod_eq_of_lt (Nat.mod_lt _ (by norm_num))

theorem mask_lt (v : Nat) : mask_data v < 2 ^ 48 :=
  Nat.mod_lt _ (by norm_num)

theorem get_type_root_of_lt (p : Nat) (hp : p < 2 ^ 48) :
    get_type (base_value .Root + p) = some .Root := by
  have h1 : ¬ (base_value .Root + p < TAG_MIN) := by
    simp only [base_value, ValueType.tag, TAG_MIN]
    omega
  have h2 : (base_value .Root + p - TAG_MIN) / 281474976710656 = 4 := by
    simp only [base_value, ValueType.tag, TAG_MIN]
    omega
  simp only [get_type, h1, if_false, Nat.reducePow]
  rw [h2]
  rfl

theorem mask_base_root_add (p : Nat) (hp : p < 2 ^ 48) :
    mask_data (base_value .Root + p) = p := by
  simp only [mask_data, base_value, ValueType.tag, TAG_MIN]
  omega

/-! ## Claim theorems: Value representation -/

/-- Claim C3: for every double bit pattern `d` strictly below `TAG_MIN`
(all finite doubles, signed zeros, infinities and sub-floor quiet NaNs),
`From<f64>` accepts `d` and `TryFrom<&Value> for f64` recovers exactly the
same bit pattern. -/
theorem real_roundtrip (d : Nat) (h : d < TAG_MIN) :
    from_real d = some d ∧ try_as_real d = some (.ok d) := by
  constructor
  · simp [from_real, Nat.le_of_lt h]
  · simp [try_as_real, get_type, h]

/-- Witness for C3 at the bit pattern of positive infinity. -/
theorem real_roundtrip_witness :
    (0x7ff0000000000000 : Nat) < TAG_MIN ∧
    from_real 0x7ff0000000000000 = some 0x7ff0000000000000 ∧
    try_as_real 0x7ff0000000000000 = some (.ok 0x7ff0000000000000) :=
  ⟨by decide, (real_roundtrip 0x7ff0000000000000 (by decide)).1,
    (real_roundtrip 0x7ff0000000000000 (by decide)).2⟩

/-- Counterexample to claim C7 as stated: the source's debug assertion is
`f64::to_bits(d) <= TAG_MIN`, so the input whose bit pattern is exactly
`TAG_MIN` — at, not below, the tag floor — is accepted. -/
theorem from_real_accepts_tag_min :
    from_real TAG_MIN = some TAG_MIN ∧ ¬ TAG_MIN < TAG_MIN :=
  ⟨by simp [from_real], by simp⟩

/-- Claim C7 (amended): `from_real`'s debug assertion accepts an input
exactly when its bit pattern is at most `TAG_MIN`, i.e. it rejects the
patterns strictly above the tag floor. -/
theorem from_real_accepts_iff (d : Nat) :
    (from_real d).isSome = true ↔ d ≤ TAG_MIN := by
  by_cases h : d ≤ TAG_MIN <;> simp [from_real, h]

/-- Claim C4: cloning a `Root` or `Ref` value yields a `Root` over the same
48-bit wrapper pointer and signals the wrapper's root count exactly once;
cloning a `Real`, `Nil`, `Bool` or `Int` value is a bitwise copy with no
signal. -/
theorem clone_spec (v : Nat) (t : ValueType) (ht : get_type v = some t) :
    ((t = .Root ∨ t = .Ref) →
      clone v = some (base_value .Root + mask_data v, 1) ∧
      get_type (base_value .Root + mask_data v) = some .Root ∧
      mask_data (base_value .Root + mask_data v) = mask_data v) ∧
    ((t = .Real ∨ t = .Nil ∨ t = .Bool ∨ t = .Int) → clone v = some (v, 0)) := by
  constructor
  · intro hheap
    refine ⟨?_, get_type_root_of_lt _ (mask_lt v), ?_⟩
    · rcases hheap with rfl | rfl <;>
        simp [clone, get_pointer, ht, from_pointer, mask_idem]
    · rw [mask_base_root_add _ (mask_lt v)]
  · rintro (rfl | rfl | rfl | rfl) <;> simp [clone, get_pointer, ht]

/-- Witness for C4: a concrete `Ref` clones to a rooted copy with one
signal, a concrete `Int` clones bitwise with none. -/
theorem clone_spec_witness :
    clone (base_value .Ref + 77) =
      some (base_value .Root + mask_data (base_value .Ref + 77), 1) ∧
    clone (base_value .Int + 3) = some (base_value .Int + 3, 0) :=
  ⟨((clone_spec (base_value .Ref + 77) .Ref (by decide)).1 (Or.inr rfl)).1,
    (clone_spec (base_value .Int + 3) .Int (by decide)).2 (Or.inr (Or.inr (Or.inr rfl)))⟩

/-! ## Claim theorems: make_upvalue (C10) -/

/-- Claim C10: on a chunk context whose upvalue table already holds 256
entries, `make_upvalue` returns the "Too many upvalues in chunk" error yet
still appends the new binding, leaving 257 entries behind. -/
theorem make_upvalue_overflow (c : ChunkContext) (id : String) (reg : Nat)
    (h : c.upvalues.length = 256) :
    (c.make_upvalue id reg).1 = .error (.err (error_str "Too many upvalues in chunk")) ∧
    (c.make_upvalue id reg).2.upvalues = c.upvalues ++ [⟨id, reg⟩] ∧
    (c.make_upvalue id reg).2.upvalues.length = 257 := by
  simp [ChunkContext.make_upvalue, h]

set_option maxRecDepth 4000 in
/-- Witness for C10 on a context with a full upvalue table. -/
theorem make_upvalue_overflow_witness :
    ctxFullUpvalues.upvalues.length = 256 ∧
    (ctxFullUpvalues.make_upvalue "x" 3).1 =
      .error (.err (error_str "Too many upvalues in chunk")) ∧
    (ctxFullUpvalues.make_upvalue "x" 3).2.upvalues.length = 257 :=
  ⟨rfl,
    (make_upvalue_overflow ctxFullUpvalues "x" 3 rfl).1,
    (make_upvalue_overflow ctxFullUpvalues "x" 3 rfl).2.2⟩

/-! ## Claim theorems: jump displacements (C6) -/

theorem u8_i8_roundtrip (i : Int) (h1 : -128 ≤ i) (h2 : i ≤ 127) :
    u8_as_i8 (i8_as_u8 i) = i := by
  simp only [u8_as_i8, i8_as_u8]
  split <;> omega

/-- Claim C6: a displacement byte `b` placed at offset `p` — appended at
the end of code by `emit_jump_to`, or written over the placeholder at `p`
by `fill_in_jump_from` — always satisfies `p + (b as i8) = target`, where
the target is `add` for `emit_jump_to` and the current end of code for
`fill_in_jump_from`; and each function fails with "Jump too large" exactly
when the required displacement leaves `[-128, 127]`.  Both Cond and While
emission write their displacement bytes only through these two
functions. -/
theorem jump_displacement (c : Chunk) (add : Nat) :
    (∀ c', emit_jump_to c add = .ok c' →
       ∃ b, c'.code = c.code ++ [.byte b] ∧
         (c.code.length : Int) + u8_as_i8 b = (add : Int)) ∧
    (emit_jump_to c add = .error (.err (error_str "Jump too large")) ↔
       ¬ (-128 ≤ (add : Int) - (c.code.length : Int) ∧
          (add : Int) - (c.code.length : Int) ≤ 127)) ∧
    (∀ c', fill_in_jump_from c add = .ok c' →
       ∃ b, c'.code = c.code.set add (.byte b) ∧
         (add : Int) + u8_as_i8 b = (c.code.length : Int)) ∧
    (fill_in_jump_from c add = .error (.err (error_str "Jump too large")) ↔
       ¬ (-128 ≤ (c.code.length : Int) - (add : Int) ∧
          (c.code.length : Int) - (add : Int) ≤ 127)) := by
  refine ⟨?_, ?_, ?_, ?_⟩
  · intro c' hc'
    simp only [emit_jump_to] at hc'
    split at hc'
    case isTrue h =>
      refine ⟨i8_as_u8 ((add : Int) - (c.code.length : Int)), ?_, ?_⟩
      · rw [← Except.ok.inj hc']
        rfl
      · rw [u8_i8_roundtrip _ h.1 h.2]
        omega
    case isFalse h => exact absurd hc' (by simp)
  · simp only [emit_jump_to]
    split
    case isTrue h => simp only [reduceCtorEq, false_iff, not_not]; exact h
    case isFalse h => simp only [true_iff]; exact h
  · intro c' hc'
    simp only [fill_in_jump_from] at hc'
    split at hc'
    case isTrue h =>
      refine ⟨i8_as_u8 ((c.code.length : Int) - (add : Int)), ?_, ?_⟩
      · rw [← Except.ok.inj hc']
      · rw [u8_i8_roundtrip _ h.1 h.2]
        omega
    case isFalse h => exact absurd hc' (by simp)
  · simp only [fill_in_jump_from]
    split
    case isTrue h => simp only [reduceCtorEq, false_iff, not_not]; exact h
    case isFalse h => simp only [true_iff]; exact h

/-- Witness for C6: a backward jump of one byte encodes as `0xff`. -/
theorem jump_displacement_witness :
    ∃ b, ({ code := [.instr .Jmp, .byte 255], constants := [], upvalues := [],
            nb_registers := 0, debug_info := ⟨"", [], []⟩ } : Chunk).code =
        ({ code := [.instr .Jmp], constants := [], upvalues := [],
           nb_registers := 0, debug_info := ⟨"", [], []⟩ } : Chunk).code ++ [.byte b] ∧
      ((({ code := [.instr .Jmp], constants := [], upvalues := [],
           nb_registers := 0, debug_info := ⟨"", [], []⟩ } : Chunk).code.length : Int) +
        u8_as_i8 b = ((0 : Nat) : Int)) :=
  (jump_displacement
      { code := [.instr .Jmp], constants := [], upvalues := [],
        nb_registers := 0, debug_info := ⟨"", [], []⟩ } 0).1
    { code := [.instr .Jmp, .byte 255], constants := [], upvalues := [],
      nb_registers := 0, debug_info := ⟨"", [], []⟩ } rfl

/-! ## Claim theorems: upvalue materialization (C1) -/

theorem encoded_ok (b : Binding) (hb : ∀ u, b = .Upvalue u → u ≤ 127) :
    b.encoded = .ok (upvalue_source_encoding b) := by
  cases b with
  | Local reg => rfl
  | Upvalue upv =>
    have h := hb upv rfl
    simp only [Binding.encoded, upvalue_source_encoding, MAX_REGISTERS]
    rw [if_pos (by omega)]

theorem materialize_ok (id : String) :
    ∀ (l : List ChunkContext) (last : ChunkContext) (b : Binding),
      (∀ u, b = .Upvalue u → u ≤ 127) →
      (∀ c ∈ l, c.upvalues.length ≤ 127) →
      last.upvalues.length ≤ 255 →
      materialize id b (l ++ [last]) = .ok (upvalue_chain_spec id b (l ++ [last]))
  | [], last, b, hb, _, hlast => by
    simp [materialize, encoded_ok b hb, ChunkContext.make_upvalue, hlast, upvalue_chain_spec]
  | c :: cs, last, b, hb, hmid, hlast => by
    have hc127 : c.upvalues.length ≤ 127 := hmid c (by simp)
    have hc255 : c.upvalues.length ≤ 255 := by omega
    have ih := materialize_ok id cs last (.Upvalue c.upvalues.length)
      (fun u hu => by injection hu with h; omega)
      (fun x hx => hmid x (by simp [hx]))
      hlast
    simp [materialize, encoded_ok b hb, ChunkContext.make_upvalue, hc255, ih, upvalue_chain_spec]

theorem chain_spec_last (id : String) :
    ∀ (l : List ChunkContext) (b : Binding) (c : ChunkContext),
      (upvalue_chain_spec id b (l ++ [c])).1 = .Upvalue c.upvalues.length
  | [], _, _ => rfl
  | x :: xs, b, c => by
    simp only [List.cons_append, upvalue_chain_spec]
    exact chain_spec_last id xs (.Upvalue x.upvalues.length) c

theorem find_enclosing_split (id : String) :
    ∀ (mids : List ChunkContext) (hit : ChunkContext) (outer : List ChunkContext) (b0 : Binding),
      (∀ c ∈ mids, find_chunk_binding c id = none) →
      find_chunk_binding hit id = some b0 →
      find_enclosing id (mids ++ hit :: outer) = some (mids, b0, hit :: outer)
  | [], hit, outer, b0, _, hhit => by simp [find_enclosing, hhit]
  | m :: ms, hit, outer, b0, hmids, hhit => by
    have h0 : find_chunk_binding m id = none := hmids m (by simp)
    have ih := find_enclosing_split id ms hit outer b0
      (fun c hc => hmids c (by simp [hc])) hhit
    simp [find_enclosing, h0, ih]

/-- Claim C1 (amended): when a lookup misses in the innermost chunk context
but the nearest enclosing hit is `k = mids.length + 1` chunks further out,
and every capture-source encoding in the chain fits a `u8` (the hit's
binding is a local or an upvalue at a slot below 128, every intervening
context other than the innermost has at most 127 upvalues, and the
innermost at most 255), `get_binding` rewrites exactly the `k` intervening
contexts (the innermost `inner` and the `mids` between it and the hit) as
described by `upvalue_chain_spec` taken from the outermost in: each
receives exactly one appended upvalue entry whose capture source is the
encoding of the adjacent outer chunk's binding (the hit's binding for the
outermost, `Upvalue` slot + `MAX_REGISTERS` thereafter), and the call
returns `Upvalue` of the slot just created in the innermost context.  The
hit context and everything beyond it are untouched.  Outside this range
the `u8` encoding `upv + MAX_REGISTERS` overflows and the compiler panics
(see the counterexample). -/
theorem get_binding_materializes
    (comp : Compiler) (id : String) (inner hit : ChunkContext)
    (mids outer : List ChunkContext) (b0 : Binding)
    (hstack : comp.ctx = inner :: (mids ++ hit :: outer))
    (hinner : find_chunk_binding inner id = none)
    (hmids : ∀ c ∈ mids, find_chunk_binding c id = none)
    (hhit : find_chunk_binding hit id = some b0)
    (hb0 : ∀ u, b0 = .Upvalue u → u ≤ 127)
    (hroom : ∀ c ∈ mids, c.upvalues.length ≤ 127)
    (hinner_room : inner.upvalues.length ≤ 255) :
    get_binding comp id =
      .ok (some (.Upvalue inner.upvalues.length),
        { comp with ctx :=
            (upvalue_chain_spec id b0 ((inner :: mids).reverse)).2.reverse
              ++ hit :: outer }) := by
  have hmat := materialize_ok id mids.reverse inner b0 hb0
    (fun c hc => hroom c (List.mem_reverse.mp hc)) hinner_room
  have hfe := find_enclosing_split id mids hit outer b0 hmids hhit
  have hlast : (upvalue_chain_spec id b0 (mids.reverse ++ [inner])).1 =
      .Upvalue inner.upvalues.length := chain_spec_last id mids.reverse b0 inner
  simp only [get_binding, hstack]
  simp [hinner, hfe, List.reverse_cons, hmat, hlast]

/-- Witness for C1: a two-chunk stack where `x` is local register 3 of the
enclosing chunk; the lookup materializes slot 0 of the inner chunk. -/
theorem get_binding_materializes_witness :
    get_binding compW "x" =
      .ok (some (.Upvalue ctxInnerW.upvalues.length),
        { compW with ctx :=
            (upvalue_chain_spec "x" (.Local 3) [ctxInnerW]).2.reverse
              ++ ctxHitW :: [] }) := by
  have h := get_binding_materializes compW "x" ctxInnerW ctxHitW [] [] (.Local 3)
    rfl rfl (by simp) rfl (fun u hu => nomatch hu) (by simp) (by decide)
  simpa using h

/-- Counterexample to claim C1 as stated: a lookup that misses in the
innermost chunk context and hits an upvalue binding at slot 128 one chunk
further out does not append an entry and return an `Upvalue` — encoding
the hit adds `MAX_REGISTERS` to the slot in `u8` arithmetic, which
overflows, so get_binding panics instead (a trap in this embedding). -/
theorem get_binding_slot128_traps :
    find_chunk_binding ctxInnerW "x" = none ∧
    find_chunk_binding ctxHitBig "x" = some (.Upvalue 128) ∧
    get_binding compBig "x" = .error (.trap "attempt to add with overflow") :=
  ⟨rfl, rfl, rfl⟩

/-! ## Claim theorems: block register discipline (C5) -/

theorem free_all_chain (l : List Nat) : ∀ (r r' : ChunkRegisters),
    free_all r l = .ok r' → List.Chain' (fun a b => b < a) l := by
  induction l with
  | nil => intro r r' _; exact List.chain'_nil
  | cons i rest ih =>
    intro r r' h
    simp only [free_all] at h
    cases hf : r.free_reg i with
    | error e => rw [hf] at h; exact absurd h (by simp)
    | ok r1 =>
      rw [hf] at h
      have hused : r1.used = i := by
        simp only [ChunkRegisters.free_reg] at hf
        split at hf
        · exact absurd hf (by simp)
        · split at hf
          · cases hf; simp_all
          · exact absurd hf (by simp)
      cases rest with
      | nil => simp
      | cons j rest2 =>
        have hj : j < i := by
          simp only [free_all] at h
          cases hg : r1.free_reg j with
          | error e => rw [hg] at h; exact absurd h (by simp)
          | ok r2 =>
            simp only [ChunkRegisters.free_reg] at hg
            split at hg
            · exact absurd hg (by simp)
            · split at hg
              · omega
              · exact absurd hg (by simp)
        exact List.chain'_cons.mpr ⟨hj, ih r1 r' h⟩

theorem leave_block_free_order (c c' : ChunkContext)
    (h : c.leave_block = .ok c') :
    List.Chain' (fun a b => b < a) (block_free_order c) := by
  unfold ChunkContext.leave_block at h
  cases hb : c.blocks with
  | nil => rw [hb] at h; exact absurd h (by simp)
  | cons b rest =>
    rw [hb] at h
    simp only [] at h
    cases hf : free_all c.regs (sort_desc (b.map (·.2))) with
    | error e => rw [hf] at h; exact absurd h (by simp)
    | ok regs =>
      have := free_all_chain _ _ _ hf
      simpa [block_free_order, hb] using this

/-- Claim C5: whenever `compile_block` returns successfully, the innermost
chunk context's `used` register counter is back at its value from before
the block (the "Leaked register" assertion passed), and the locals of any
block successfully left by `leave_block` were freed in strictly descending
register order — each individual free having passed `free_reg`'s LIFO
assertion. -/
theorem compile_block_restores_used (fuel : Nat) (comp comp' : Compiler) (stats : List PStat)
    (h : compile_block fuel comp stats = .ok comp') :
    (comp'.ctx.head?.map fun c => c.regs.used) =
      (comp.ctx.head?.map fun c => c.regs.used) ∧
    ∀ c c', ChunkContext.leave_block c = .ok c' →
      List.Chain' (fun a b => b < a) (block_free_order c) := by
  refine ⟨?_, fun c c' hlv => leave_block_free_order c c' hlv⟩
  cases fuel with
  | zero => exact absurd h (by simp [compile_block])
  | succ fuel =>
    simp only [compile_block] at h
    cases hctx : comp.ctx with
    | nil => rw [hctx] at h; exact absurd h (by simp)
    | cons cc rest =>
      rw [hctx] at h
      simp only [] at h
      cases hs : compile_stats fuel { comp with ctx := cc.enter_block :: rest } stats with
      | error e => rw [hs] at h; exact absurd h (by simp)
      | ok comp2 =>
        rw [hs] at h
        simp only [] at h
        cases hlv : comp2.leave_block with
        | error e => rw [hlv] at h; exact absurd h (by simp)
        | ok comp3 =>
          rw [hlv] at h
          simp only [] at h
          cases hctx3 : comp3.ctx with
          | nil => rw [hctx3] at h; exact absurd h (by simp)
          | cons cc' rest' =>
            rw [hctx3] at h
            simp only [] at h
            by_cases heq : cc.regs.used = cc'.regs.used
            · rw [if_pos heq] at h
              cases h
              simp [hctx, hctx3, heq]
            · rw [if_neg heq] at h
              exact absurd h (by simp)

/-- Witness for C5: the empty block leaves the fresh main-chunk state
unchanged. -/
theorem compile_block_restores_used_witness :
    compile_block 2 cPre [] = .ok cPre ∧
    ((cPre.ctx.head?.map fun c => c.regs.used) =
        (cPre.ctx.head?.map fun c => c.regs.used) ∧
      ∀ c c', ChunkContext.leave_block c = .ok c' →
        List.Chain' (fun a b => b < a) (block_free_order c)) :=
  ⟨rfl, compile_block_restores_used 2 cPre cPre [] rfl⟩

/-! ## Shared stepwise-evaluation lemmas: one-step unfoldings of the
statement loop, block wrapper, and program entry, used to evaluate
concrete programs without deep kernel reduction -/

theorem compile_stats_cons_ok (fuel : Nat) (comp comp' : Compiler) (stat : Stat)
    (line col : Nat) (rest : List PStat)
    (hdi : comp.debug_info = false) (hline : line ≤ 65535)
    (h : compile_stat fuel comp stat = .ok comp') :
    compile_stats (fuel + 1) comp (.mk stat line col :: rest) =
      compile_stats fuel comp' rest := by
  simp only [compile_stats, hdi, hline, if_true, Bool.false_eq_true, if_false]
  rw [h]

theorem compile_block_stats_leave (fuel : Nat) (comp comp2 : Compiler) (cc : ChunkContext)
    (rest : List ChunkContext) (stats : List PStat) (e : Fail)
    (hctx : comp.ctx = cc :: rest)
    (hstats : compile_stats fuel { comp with ctx := cc.enter_block :: rest } stats = .ok comp2)
    (hlv : comp2.leave_block = .error e) :
    compile_block (fuel + 1) comp stats = .error e := by
  simp only [compile_block, hctx]
  rw [hstats]
  simp only [hlv]

theorem compile_program_main_error (fuel : Nat) (ast : List PStat) (e : Fail)
    (hblock : compile_block fuel cPre ast = .error e) :
    compile_program (fuel + 1) false ast = .error e := by
  simp only [cPre, Chunk.new] at hblock
  simp only [compile_program, compile_chunk, Compiler.new, Compiler.enter_block,
    Compiler.mapCtx, declare_args, ChunkContext.new, ChunkContext.enter_block,
    Chunk.new, ChunkRegisters.new, Bool.false_eq_true, if_false, List.length_nil,
    List.nil_append, List.singleton_append, List.length_cons, Except.map]
  rw [hblock]

theorem compile_block_stats_err (fuel : Nat) (comp : Compiler) (cc : ChunkContext)
    (rest : List ChunkContext) (stats : List PStat) (e : Fail)
    (hctx : comp.ctx = cc :: rest)
    (hstats : compile_stats fuel { comp with ctx := cc.enter_block :: rest } stats = .error e) :
    compile_block (fuel + 1) comp stats = .error e := by
  simp only [compile_block, hctx]
  rw [hstats]

theorem compile_stats_cons_err0 (fuel : Nat) (comp : Compiler) (stat : Stat)
    (line col : Nat) (rest : List PStat) (msg : String)
    (hdi : comp.debug_info = false) (hline : line ≤ 65535)
    (h : compile_stat fuel comp stat = .error (.err ⟨.Compilation, msg, 0⟩)) :
    compile_stats (fuel + 1) comp (.mk stat line col :: rest) =
      .error (.err ⟨.Compilation, msg, line⟩) := by
  simp only [compile_stats, hdi, hline, if_true, Bool.false_eq_true, if_false]
  rw [h]

/-! ## Claim theorems: error line attribution (C8) -/

theorem free_reg_no_err (r : ChunkRegisters) (i : Nat) (he : HissyError) :
    r.free_reg i ≠ .error (.err he) := by
  unfold ChunkRegisters.free_reg
  split
  · simp
  · split <;> simp

theorem free_all_no_err : ∀ (l : List Nat) (r : ChunkRegisters) (he : HissyError),
    free_all r l ≠ .error (.err he)
  | [], r, he => by simp [free_all]
  | i :: rest, r, he => by
    simp only [free_all]
    cases hf : r.free_reg i with
    | error e =>
      cases e with
      | err e2 => exact absurd hf (free_reg_no_err r i e2)
      | trap m => simp
    | ok r1 => exact free_all_no_err rest r1 he

theorem leave_block_no_err_ctx (c : ChunkContext) (he : HissyError) :
    c.leave_block ≠ .error (.err he) := by
  unfold ChunkContext.leave_block
  cases c.blocks with
  | nil => simp
  | cons b rest =>
    simp only []
    cases hf : free_all c.regs (sort_desc (b.map (·.2))) with
    | error e =>
      cases e with
      | err e2 => exact absurd hf (free_all_no_err _ _ _)
      | trap m => simp
    | ok regs => simp

theorem leave_block_no_err (comp : Compiler) (he : HissyError) :
    comp.leave_block ≠ .error (.err he) := by
  unfold Compiler.leave_block Compiler.mapCtx
  cases comp.ctx with
  | nil => simp [Except.map]
  | cons c rest =>
    simp only []
    cases hl : c.leave_block with
    | error e =>
      cases e with
      | err e2 => exact absurd hl (leave_block_no_err_ctx c e2)
      | trap m => simp [hl, Except.map]
    | ok c2 => simp [hl, Except.map]

theorem push_line_no_err (comp : Compiler) (line : Nat) (he : HissyError) :
    comp.push_line line ≠ .error (.err he) := by
  unfold Compiler.push_line Compiler.mapChunk
  cases comp.chunkStack with
  | nil => simp [Except.map]
  | cons idx rest =>
    simp only []
    cases comp.chunks.get? idx with
    | none => simp [Except.map]
    | some c =>
      simp only []
      by_cases hcl : c.code.length ≤ 65535
      · rw [if_pos hcl]
        simp [Except.map]
      · rw [if_neg hcl]
        simp [Except.map]

theorem compile_stats_error_line : ∀ (fuel : Nat) (comp : Compiler) (stats : List PStat)
    (he : HissyError),
    (∀ p ∈ stats, 1 ≤ p.line ∧ p.line ≤ 65535) →
    compile_stats fuel comp stats = .error (.err he) →
    he.etype = .Compilation → he.line ≠ 0
  | 0, comp, stats, he, _, h, _ => by simp [compile_stats] at h
  | _ + 1, comp, [], he, _, h, _ => by simp [compile_stats] at h
  | fuel + 1, comp, .mk stat line col :: rest, he, hlines, h, hc => by
    have hl : 1 ≤ line ∧ line ≤ 65535 := by
      have := hlines (.mk stat line col) (by simp)
      simpa [PStat.line] using this
    simp only [compile_stats] at h
    rw [if_pos hl.2] at h
    cases hpl : (if comp.debug_info = true then comp.push_line line else Except.ok comp) with
    | error e =>
      rw [hpl] at h
      simp only [] at h
      cases e with
      | trap m => simp at h
      | err e2 =>
        by_cases hdi : comp.debug_info = true
        · rw [if_pos hdi] at hpl
          exact absurd hpl (push_line_no_err comp line e2)
        · rw [if_neg hdi] at hpl
          exact absurd hpl (by simp)
    | ok c1 =>
      rw [hpl] at h
      simp only [] at h
      cases hcs : compile_stat fuel c1 stat with
      | ok c2 =>
        rw [hcs] at h
        simp only [] at h
        exact compile_stats_error_line fuel c2 rest he
          (fun p hp => hlines p (List.mem_cons_of_mem _ hp)) h hc
      | error f =>
        cases f with
        | trap m => rw [hcs] at h; simp at h
        | err e0 =>
          obtain ⟨et, msg, l⟩ := e0
          rw [hcs] at h
          cases et with
          | Compilation =>
            cases l with
            | zero =>
              simp only [] at h
              injection h with h1
              injection h1 with h2
              subst h2
              have := hl.1
              simp only [ne_eq]
              omega
            | succ n =>
              simp only [] at h
              injection h with h1
              injection h1 with h2
              subst h2
              simp
          | Parse =>
            simp only [] at h
            injection h with h1
            injection h1 with h2
            subst h2
            exact absurd hc (by simp)
          | Runtime =>
            simp only [] at h
            injection h with h1
            injection h1 with h2
            subst h2
            exact absurd hc (by simp)

/-- Claim C8 (amended): a `Compilation` error escaping `compile_block` over
statements whose source lines all lie in `[1, 65535]` never carries line 0:
any compiler error raised while compiling a statement — the chunk-wiring
errors "Too many chunks" and "Too many upvalues in chunk" included, which
are raised at line 0 below a statement — is re-tagged with the enclosing
statement's (nonzero) line by the statement loop. -/
theorem compile_block_error_line (fuel : Nat) (comp : Compiler) (stats : List PStat)
    (he : HissyError)
    (hlines : ∀ p ∈ stats, 1 ≤ p.line ∧ p.line ≤ 65535)
    (h : compile_block fuel comp stats = .error (.err he))
    (hc : he.etype = .Compilation) : he.line ≠ 0 := by
  cases fuel with
  | zero => exact absurd h (by simp [compile_block])
  | succ fuel =>
    simp only [compile_block] at h
    cases hctx : comp.ctx with
    | nil => rw [hctx] at h; exact absurd h (by simp)
    | cons cc rest =>
      rw [hctx] at h
      simp only [] at h
      cases hs : compile_stats fuel { comp with ctx := cc.enter_block :: rest } stats with
      | error f =>
        rw [hs] at h
        simp only [] at h
        cases f with
        | err e0 =>
          injection h with h1
          injection h1 with h2
          subst h2
          exact compile_stats_error_line fuel _ stats _ hlines hs hc
        | trap m => simp at h
      | ok comp2 =>
        rw [hs] at h
        simp only [] at h
        cases hlv : comp2.leave_block with
        | error f =>
          rw [hlv] at h
          simp only [] at h
          cases f with
          | err e2 => exact absurd hlv (leave_block_no_err comp2 e2)
          | trap m => simp at h
        | ok comp3 =>
          rw [hlv] at h
          simp only [] at h
          cases hctx3 : comp3.ctx with
          | nil => rw [hctx3] at h; exact absurd h (by simp)
          | cons cc' rest' =>
            rw [hctx3] at h
            simp only [] at h
            split at h <;> exact absurd h (by simp)

set_option maxRecDepth 8000 in
/-- Witness for C8: an undefined-binding error raised at line 0 inside the
statement at line 5 is reported with line 5. -/
theorem compile_block_error_line_witness :
    compile_block 4 cPre [.mk (.ExprStat (.Id "x")) 5 0] =
      .error (.err ⟨.Compilation, "Referencing undefined binding 'x'", 5⟩) ∧
    ((⟨.Compilation, "Referencing undefined binding 'x'", 5⟩ : HissyError).line ≠ 0) :=
  ⟨rfl,
    compile_block_error_line 4 cPre [.mk (.ExprStat (.Id "x")) 5 0]
      ⟨.Compilation, "Referencing undefined binding 'x'", 5⟩
      (by decide) rfl rfl⟩

theorem set_replicate_self {α : Type} (a : α) : ∀ (n i : Nat),
    (List.replicate n a).set i a = List.replicate n a
  | 0, _ => rfl
  | _ + 1, 0 => by simp [List.replicate_succ]
  | n + 1, i + 1 => by simp [List.replicate_succ, set_replicate_self a n i]

theorem get_replicate {α : Type} (a : α) : ∀ (n i : Nat), i < n →
    (List.replicate n a).get? i = some a
  | n + 1, 0, _ => rfl
  | n + 1, i + 1, h => by
    simp only [List.replicate_succ, List.get?_cons_succ]
    exact get_replicate a n i (by omega)

theorem rep_snoc {α : Type} (a : α) (n : Nat) :
    List.replicate n a ++ [a] = List.replicate (n + 1) a :=
  (List.replicate_succ' _ _).symm

theorem mainCode_succ (k : Nat) :
    mainCode (k + 1) = mainCode k ++ [.instr .Func, .byte (k + 1), .byte 0] := by
  simp [mainCode, List.range_succ]

/-- One statement `fn() {}` compiled from the state with `k ≤ 254` chunks
already created: it opens, compiles and closes chunk `k + 1`, emits
`Func (k + 1), 0` into the main chunk, and frees its result register. -/
theorem funcs_step (f k r : Nat) (hk : k ≤ 254) (hr : r = 0 ∨ r = 1) :
    compile_stat (f + 1 + 1 + 1 + 1 + 1) (funcsStateR k r) (.ExprStat (.Function [] [])) =
      .ok (funcsStateR (k + 1) 1) := by
  have h255 : k + 1 ≤ 255 := by omega
  have hget : (List.replicate (k + 1)
      ({ code := [], constants := [], upvalues := [], nb_registers := 0,
         debug_info := { name := "", upvalue_names := [], line_numbers := [] } } : Chunk)).get? k =
      some { code := [], constants := [], upvalues := [], nb_registers := 0,
             debug_info := { name := "", upvalue_names := [], line_numbers := [] } } :=
    get_replicate _ _ _ (by omega)
  have hset : (List.replicate (k + 1)
      ({ code := [], constants := [], upvalues := [], nb_registers := 0,
         debug_info := { name := "", upvalue_names := [], line_numbers := [] } } : Chunk)).set k
      { code := [], constants := [], upvalues := [], nb_registers := 0,
        debug_info := { name := "", upvalue_names := [], line_numbers := [] } } =
      List.replicate (k + 1)
      { code := [], constants := [], upvalues := [], nb_registers := 0,
        debug_info := { name := "", upvalue_names := [], line_numbers := [] } } :=
    set_replicate_self _ _ _
  rcases hr with rfl | rfl <;>
  · simp only [funcsStateR, compile_stat, compile_expr, compile_chunk, compile_block,
      compile_stats, declare_args, copy_tail, Option.getD,
      Compiler.emit_instr, Compiler.emit_byte, Compiler.emit_reg, Compiler.new_reg,
      Compiler.code_len, Compiler.free_temp_reg, Compiler.set_chunk_name,
      Compiler.store_chunk_info, Compiler.enter_block, Compiler.leave_block,
      Compiler.mapCtx, Compiler.mapChunk, Compiler.mapRegs,
      ChunkContext.new, ChunkContext.enter_block, ChunkContext.leave_block,
      free_all, sort_desc, insert_desc, ChunkRegisters.new, ChunkRegisters.new_reg,
      ChunkRegisters.free_reg, ChunkRegisters.free_temp_reg, MAX_REGISTERS,
      Chunk.new, Chunk.emit_byte, Chunk.emit_instr, Except.map,
      List.length_cons, List.length_replicate, List.cons_append, List.nil_append,
      List.map_nil, List.get?_cons_succ, List.get?_cons_zero, List.set_cons_succ,
      List.set_cons_zero, rep_snoc, mainCode_succ, hget, hset, set_replicate_self, h255,
      List.foldl_nil, List.map_cons, Bool.false_eq_true, if_false, if_true]
    simp [funcsStateR, mainCode_succ, hget, hset, h255, Chunk.new,
      ChunkRegisters.new_reg, ChunkRegisters.free_reg, ChunkRegisters.free_temp_reg,
      Compiler.mapCtx, Compiler.mapChunk, Compiler.mapRegs, Compiler.emit_byte,
      Compiler.emit_reg, Compiler.new_reg, Compiler.free_temp_reg, Compiler.emit_instr,
      Chunk.emit_byte, Chunk.emit_instr, copy_tail, Except.map, MAX_REGISTERS,
      free_all, sort_desc, insert_desc, List.append_assoc]

/-- The 257th function literal: with 256 chunks already created, the new
chunk id does not fit in a `u8` and compile_stat reports "Too many chunks"
at line 0. -/
theorem funcs_overflow (f k r : Nat) (hk : 255 ≤ k) (hr : r = 0 ∨ r = 1) :
    compile_stat (f + 1 + 1 + 1 + 1 + 1) (funcsStateR k r) (.ExprStat (.Function [] [])) =
      .error (.err ⟨.Compilation, "Too many chunks", 0⟩) := by
  have hn : ¬ (k + 1 ≤ 255) := by omega
  have hget : (List.replicate (k + 1)
      ({ code := [], constants := [], upvalues := [], nb_registers := 0,
         debug_info := { name := "", upvalue_names := [], line_numbers := [] } } : Chunk)).get? k =
      some { code := [], constants := [], upvalues := [], nb_registers := 0,
             debug_info := { name := "", upvalue_names := [], line_numbers := [] } } :=
    get_replicate _ _ _ (by omega)
  have hset : (List.replicate (k + 1)
      ({ code := [], constants := [], upvalues := [], nb_registers := 0,
         debug_info := { name := "", upvalue_names := [], line_numbers := [] } } : Chunk)).set k
      { code := [], constants := [], upvalues := [], nb_registers := 0,
        debug_info := { name := "", upvalue_names := [], line_numbers := [] } } =
      List.replicate (k + 1)
      { code := [], constants := [], upvalues := [], nb_registers := 0,
        debug_info := { name := "", upvalue_names := [], line_numbers := [] } } :=
    set_replicate_self _ _ _
  rcases hr with rfl | rfl <;>
  · simp only [funcsStateR, compile_stat, compile_expr, compile_chunk, compile_block,
      compile_stats, declare_args, copy_tail, Option.getD,
      Compiler.emit_instr, Compiler.emit_byte, Compiler.emit_reg, Compiler.new_reg,
      Compiler.code_len, Compiler.free_temp_reg, Compiler.set_chunk_name,
      Compiler.store_chunk_info, Compiler.enter_block, Compiler.leave_block,
      Compiler.mapCtx, Compiler.mapChunk, Compiler.mapRegs,
      ChunkContext.new, ChunkContext.enter_block, ChunkContext.leave_block,
      free_all, sort_desc, insert_desc, ChunkRegisters.new, ChunkRegisters.new_reg,
      ChunkRegisters.free_reg, ChunkRegisters.free_temp_reg, MAX_REGISTERS,
      Chunk.new, Chunk.emit_byte, Chunk.emit_instr, Except.map,
      List.length_cons, List.length_replicate, List.cons_append, List.nil_append,
      List.map_nil, List.get?_cons_succ, List.get?_cons_zero, List.set_cons_succ,
      List.set_cons_zero, rep_snoc, mainCode_succ, hget, hset, set_replicate_self, hn,
      List.foldl_nil, List.map_cons, Bool.false_eq_true, if_false, if_true]
    simp [hn, error_str, error]

/-- Compiling the last `n` of the 256 statements `fn() {}` from the state
after the first `256 - n` of them ends in the "Too many chunks" error,
re-tagged to the statements' line 7. -/
theorem funcs_loop : ∀ (n f k r : Nat), k + n = 256 → 1 ≤ n → (r = 0 ∨ r = 1) →
    compile_stats (6 * n + f) (funcsStateR k r) (List.replicate n fnStmt) =
      .error (.err ⟨.Compilation, "Too many chunks", 7⟩)
  | 0, _, _, _, _, h1, _ => absurd h1 (by omega)
  | 1, f, k, r, hk, _, hr => by
    have hk255 : k = 255 := by omega
    subst hk255
    have hov := funcs_overflow f 255 r (by omega) hr
    have h := compile_stats_cons_err0 (f + 1 + 1 + 1 + 1 + 1) (funcsStateR 255 r)
      (.ExprStat (.Function [] [])) 7 0 [] "Too many chunks" rfl (by decide) hov
    rw [show 6 * 1 + f = (f + 1 + 1 + 1 + 1 + 1) + 1 from by omega]
    exact h
  | m + 2, f, k, r, hk, _, hr => by
    have hstep := funcs_step (6 * (m + 1) + f) k r (by omega) hr
    have hrest := funcs_loop (m + 1) (f + 1 + 1 + 1 + 1 + 1) (k + 1) 1 (by omega)
      (by omega) (Or.inr rfl)
    rw [show 6 * (m + 1) + (f + 1 + 1 + 1 + 1 + 1) =
        (6 * (m + 1) + f) + 1 + 1 + 1 + 1 + 1 from by omega] at hrest
    have hcons := compile_stats_cons_ok ((6 * (m + 1) + f) + 1 + 1 + 1 + 1 + 1)
      (funcsStateR k r) (funcsStateR (k + 1) 1) (.ExprStat (.Function [] [])) 7 0
      (List.replicate (m + 1) fnStmt) rfl (by decide) hstep
    rw [show 6 * (m + 2) + f = ((6 * (m + 1) + f) + 1 + 1 + 1 + 1 + 1) + 1 from by omega]
    exact hcons.trans hrest

/-- Counterexample to claim C8 as stated: the complete program made of 256
statements `fn() {}`, all at source line 7, fails with the chunk-wiring
error "Too many chunks" (built at line 0 when the 257th chunk id overflows
a `u8`), but the error is reported with line 7 — the enclosing statement's
line, not line 0 as the claim asserts. -/
theorem too_many_chunks_retagged :
    compile_program (6 * 256 + 2) false (List.replicate 256 fnStmt) =
      .error (.err ⟨.Compilation, "Too many chunks", 7⟩) ∧ (7 : Nat) ≠ 0 := by
  refine ⟨?_, by decide⟩
  have hstats := funcs_loop 256 0 0 0 (by omega) (by omega) (Or.inl rfl)
  have hblock := compile_block_stats_err (6 * 256 + 0) cPre
    { regs := ⟨0, 0, 0⟩, blocks := [[]], upvalues := [] } [] (List.replicate 256 fnStmt)
    (.err ⟨.Compilation, "Too many chunks", 7⟩) rfl hstats
  have hprog := compile_program_main_error ((6 * 256 + 0) + 1) (List.replicate 256 fnStmt)
    (.err ⟨.Compilation, "Too many chunks", 7⟩) hblock
  rw [show 6 * 256 + 2 = ((6 * 256 + 0) + 1) + 1 from by omega]
  exact hprog

/-! ## Claim theorems: call arity (C9) -/

/-- Claim C9 (amended): the arity conversion of the `Expr::Call` arm raises
"Too many function arguments" exactly when the call has more than 65535
arguments (the bound of `u16::try_from`), not more than 255; argument
counts in `[256, 65535]` pass it and fail register allocation instead. -/
theorem arg_count_check_iff (args : List Expr) :
    arg_count_check args = .error (.err (error_str "Too many function arguments")) ↔
      args.length > 65535 := by
  unfold arg_count_check
  split
  case isTrue h => simp only [reduceCtorEq, false_iff]; omega
  case isFalse h => simp only [true_iff]; omega

set_option maxRecDepth 8000 in
/-- Counterexample to claim C9 as stated: compiling the program
`let f = fn() {} f(nil × 256)`, whose call has 256 arguments — more than
255 — does not raise "Too many function arguments"; the arity check
passes and the compilation fails in register allocation with
"Cannot compile: Too many registers required". -/
theorem call_256_args_not_arity_error :
    compile_program 10 false astC9 =
      .error (.err ⟨.Compilation, "Cannot compile: Too many registers required", 2⟩) ∧
    (List.replicate 256 Expr.Nil).length > 255 ∧
    ("Cannot compile: Too many registers required" : String) ≠
      "Too many function arguments" := by
  have e1 : compile_stat 7 cIn (.Let "f" (.Function [] [])) = .ok cMid := by rfl
  have e2 : compile_stat 6 cMid (.ExprStat (.Call (.Id "f") (List.replicate 256 .Nil))) =
      .error (.err ⟨.Compilation, "Cannot compile: Too many registers required", 0⟩) := by rfl
  have hss : compile_stats 8 cIn astC9 =
      .error (.err ⟨.Compilation, "Cannot compile: Too many registers required", 2⟩) :=
    (compile_stats_cons_ok 7 cIn cMid _ 1 0 _ rfl (by decide) e1).trans
      (compile_stats_cons_err0 6 cMid _ 2 0 [] _ rfl (by decide) e2)
  have hblock : compile_block 9 cPre astC9 =
      .error (.err ⟨.Compilation, "Cannot compile: Too many registers required", 2⟩) :=
    compile_block_stats_err 8 cPre _ _ astC9 _ rfl hss
  exact ⟨compile_program_main_error 9 astC9 _ hblock, by decide, by decide⟩

/-! ## Claim theorems: in-block rebinding (C2) -/

/-- Claim C2 is a code bug: compiling the spec's scenario 5,
`let a = 1 let a = a + 10 log a`, does not succeed.  The rebinding `let`
frees the old register for `a` (dropping `local_cnt` to 0), allocates the
same register anew, and compiles the initializer — during which
`free_temp_reg` frees that register again, since it is not yet registered
as a local.  `make_local` then leaves `local_cnt = 1 > used = 0`, and when
the block is left, freeing `a`'s register underflows `used - 1`, a
debug-build panic (and a failed "freed in FIFO order" assertion either
way).  The program never compiles, so it cannot log 11. -/
theorem compile_rebinding_program_traps :
    compile_program 8 false astC2 =
      .error (.trap "attempt to subtract with overflow") := by
  have e1 : compile_stat 5 cIn (.Let "a" (.Int 1)) = .ok cA := by rfl
  have e2 : compile_stat 4 cA (.Let "a" (.BinOp .Plus (.Id "a") (.Int 10))) = .ok cB := by rfl
  have e3 : compile_stat 3 cB (.Log (.Id "a")) = .ok cC := by rfl
  have hss : compile_stats 6 cIn astC2 = .ok cC := by
    calc compile_stats 6 cIn astC2
        = compile_stats 5 cA [.mk (.Let "a" (.BinOp .Plus (.Id "a") (.Int 10))) 2 0,
                              .mk (.Log (.Id "a")) 3 0] :=
          compile_stats_cons_ok 5 cIn cA _ 1 0 _ rfl (by decide) e1
      _ = compile_stats 4 cB [.mk (.Log (.Id "a")) 3 0] :=
          compile_stats_cons_ok 4 cA cB _ 2 0 _ rfl (by decide) e2
      _ = compile_stats 3 cC [] :=
          compile_stats_cons_ok 3 cB cC _ 3 0 _ rfl (by decide) e3
      _ = .ok cC := rfl
  have hlv : cC.leave_block = .error (.trap "attempt to subtract with overflow") := by rfl
  have hblock : compile_block 7 cPre astC2 =
      .error (.trap "attempt to subtract with overflow") :=
    compile_block_stats_leave 6 cPre cC _ _ _ _ rfl hss hlv
  exact compile_program_main_error 7 astC2 _ hblock

end Hissy
